import Mathlib

/-!
# Verification of the stream session multiplexer (`src/youtube-live.py`)

Shallow embedding of the `StreamProcessManager` class and of the prefix of
the `/stream` Flask handler that the spec's claims talk about.

Modelling choices, all documented at the definitions:

* A `subprocess.Popen` object is a `ProcessState` record: its identity
  (`pid`), liveness (`poll() is None` iff `alive = true`), and the flags a
  kill sequence mutates (`terminated`, `killed`, `stdoutClosed`,
  `stderrClosed`).
* The Python dict `self.processes` is an association list
  `List (String × SessionInfo)`; dict membership / assignment / `del` are
  `lookupA` / `insertA` / `eraseA`.
* A Python `set` of `(client_ip, user_agent)` tuples is a duplicate-free
  `List ClientInfo`; `set.add` is `addClient`, `set.discard` is
  `discardClient`.
* `threading.Lock` is NON-reentrant, so the state carries a `locked` flag;
  an operation that tries to acquire the lock while it is held by its own
  (only) thread blocks forever, which the model renders as `none`.
* `datetime.now()` is a strictly increasing counter `clock` (each call
  returns the current value and advances it).
* `subprocess.Popen(...)` in `run_streamlink` may raise (e.g. missing
  `streamlink` binary); the environment outcome is the `launchOk`
  parameter, and the raised exception is `Except.error`.  The ghost
  counter `launches` counts `Popen` launch attempts.
* `process.wait(timeout=5)` either returns within the grace period or
  raises `TimeoutExpired`; the environment outcome is the `graceful`
  parameter of `kill_process`.
-/

set_option autoImplicit false

namespace YoutubeLive

/-- A `(client_ip, user_agent)` pair as built in `get_process` from
`request.remote_addr` and the `User-Agent` header. -/
structure ClientInfo where
  ip : String
  userAgent : String
deriving DecidableEq, Repr

/-- The observable state of one `subprocess.Popen` object: its identity,
whether `poll()` would return `None` (`alive`), and whether `terminate()`,
`kill()`, `stdout.close()`, `stderr.close()` have been called on it. -/
structure ProcessState where
  pid : Nat
  alive : Bool
  terminated : Bool
  killed : Bool
  stdoutClosed : Bool
  stderrClosed : Bool
deriving DecidableEq, Repr

/-- One value of the dict `self.processes`:
`{'process': ..., 'quality': ..., 'clients': ..., 'start_time': ...}`. -/
structure SessionInfo where
  process : ProcessState
  quality : String
  clients : List ClientInfo
  start_time : Nat
deriving DecidableEq, Repr

/-- The state of a `StreamProcessManager` object, together with the ghost
clock and the ghost launch counter.  `locked` is the state of the
non-reentrant `self.lock`; `nextPid` supplies fresh process identities. -/
structure ManagerState where
  processes : List (String × SessionInfo)
  locked : Bool
  clock : Nat
  nextPid : Nat
  launches : Nat
deriving DecidableEq, Repr

/-- `StreamProcessManager.__init__`: empty dict, released lock. -/
def initialManager : ManagerState :=
  { processes := [], locked := false, clock := 0, nextPid := 0, launches := 0 }

/-- Dict lookup `self.processes[url]` (also `url in self.processes`). -/
def lookupA : List (String × SessionInfo) → String → Option SessionInfo
  | [], _ => none
  | (k, v) :: rest, key => if k = key then some v else lookupA rest key

/-- Dict deletion `del self.processes[url]`. -/
def eraseA : List (String × SessionInfo) → String → List (String × SessionInfo)
  | [], _ => []
  | (k, v) :: rest, key =>
      if k = key then eraseA rest key else (k, v) :: eraseA rest key

/-- Dict assignment `self.processes[url] = info`: replaces the value when
the key is present, otherwise appends the new entry. -/
def insertA : List (String × SessionInfo) → String → SessionInfo →
    List (String × SessionInfo)
  | [], key, v => [(key, v)]
  | (k, w) :: rest, key, v =>
      if k = key then (k, v) :: rest else (k, w) :: insertA rest key v

/-- `set.add(client_info)`: no-op when the member is already present. -/
def addClient (clients : List ClientInfo) (c : ClientInfo) : List ClientInfo :=
  if c ∈ clients then clients else c :: clients

/-- `set.discard(client_info)`: removes the member when present, no-op
otherwise. -/
def discardClient (clients : List ClientInfo) (c : ClientInfo) : List ClientInfo :=
  clients.filter (fun x => x ≠ c)

/-- `self.lock.acquire()` on the non-reentrant `threading.Lock`: blocks
forever (`none`) when the lock is already held. -/
def acquireLock (s : ManagerState) : Option ManagerState :=
  if s.locked then none else some { s with locked := true }

/-- `self.lock.release()` at the end of a `with self.lock:` block (also run
when the block is left by `return` or by a raised exception). -/
def releaseLock (s : ManagerState) : ManagerState :=
  { s with locked := false }

/-- `StreamProcessManager.run_streamlink(url, quality, client_info)`
(lines 48-65).  Called with the registry lock already held; does not touch
the lock itself.  `subprocess.Popen` is a launch attempt counted in
`launches`; when it raises (`launchOk = false`) the exception propagates
(`Except.error`) and no dict entry is written.  On success the new entry
records the fresh process, the quality, the one-member client set and
`datetime.now()`. -/
def run_streamlink (s : ManagerState) (url quality : String) (client : ClientInfo)
    (launchOk : Bool) : Except Unit ProcessState × ManagerState :=
  if launchOk then
    let p : ProcessState :=
      { pid := s.nextPid, alive := true, terminated := false, killed := false,
        stdoutClosed := false, stderrClosed := false }
    let sess : SessionInfo :=
      { process := p, quality := quality, clients := [client], start_time := s.clock }
    (Except.ok p,
      { s with processes := insertA s.processes url sess,
               nextPid := s.nextPid + 1,
               launches := s.launches + 1,
               clock := s.clock + 1 })
  else
    (Except.error (), { s with launches := s.launches + 1 })

/-- `StreamProcessManager.get_process(url, quality)` (lines 33-46), with the
client identity already extracted from the request.  Inside
`with self.lock:`: a present entry whose process is alive gets the client
added and its process returned; a present entry whose process has exited
(`poll() is not None`) is deleted and relaunched via `run_streamlink`; an
absent entry goes straight to `run_streamlink`. -/
def get_process (s : ManagerState) (url quality : String) (client : ClientInfo)
    (launchOk : Bool) : Option (Except Unit ProcessState × ManagerState) :=
  match acquireLock s with
  | none => none
  | some s1 =>
    match lookupA s1.processes url with
    | some sess =>
      if sess.process.alive then
        let sess' := { sess with clients := addClient sess.clients client }
        some (Except.ok sess.process,
          releaseLock { s1 with processes := insertA s1.processes url sess' })
      else
        let s2 := { s1 with processes := eraseA s1.processes url }
        let r := run_streamlink s2 url quality client launchOk
        some (r.1, releaseLock r.2)
    | none =>
      let r := run_streamlink s1 url quality client launchOk
      some (r.1, releaseLock r.2)

/-- `StreamProcessManager.remove_client(url, client_addr, user_agent)`
(lines 67-74): inside `with self.lock:`, discard the client pair from the
entry's client set when the entry exists; the process is never touched. -/
def remove_client (s : ManagerState) (url clientAddr userAgent : String) :
    Option ManagerState :=
  match acquireLock s with
  | none => none
  | some s1 =>
    match lookupA s1.processes url with
    | some sess =>
      let sess' := { sess with clients := discardClient sess.clients ⟨clientAddr, userAgent⟩ }
      some (releaseLock { s1 with processes := insertA s1.processes url sess' })
    | none => some (releaseLock s1)

/-- `StreamProcessManager.kill_process(url)` (lines 76-93): inside
`with self.lock:`.  When the entry exists and its process is still running
(`poll() is None`), `terminate()` it, `wait(timeout=5)` (on timeout,
`kill()`), close both pipes; in every present-entry case delete the entry
and return `True`; return `False` when absent.  The second component of
the result is the final state of the local variable `process` (the `Popen`
object outlives the deleted dict entry), `none` when no entry existed. -/
def kill_process (s : ManagerState) (url : String) (graceful : Bool) :
    Option (Bool × Option ProcessState × ManagerState) :=
  match acquireLock s with
  | none => none
  | some s1 =>
    match lookupA s1.processes url with
    | some sess =>
      let p := sess.process
      let p' := if p.alive then
          { p with alive := false, terminated := true, killed := !graceful,
                   stdoutClosed := true, stderrClosed := true }
        else p
      some (true, some p',
        releaseLock { s1 with processes := eraseA s1.processes url })
    | none => some (false, none, releaseLock s1)

/-- The `for url in urls_to_remove: self.kill_process(url)` loop body of
`kill_all_processes`, run while `with self.lock:` is already in effect:
each `kill_process` call tries to re-acquire the held non-reentrant lock. -/
def killAllLoop (graceful : Bool) : List String → ManagerState → Option ManagerState
  | [], s => some s
  | url :: rest, s =>
    match kill_process s url graceful with
    | none => none
    | some (_, _, s') => killAllLoop graceful rest s'

/-- `StreamProcessManager.kill_all_processes()` (lines 95-100): inside
`with self.lock:`, snapshot `list(self.processes.keys())` and call
`kill_process` on each.  `none` models the call never returning. -/
def kill_all_processes (s : ManagerState) (graceful : Bool) : Option ManagerState :=
  match acquireLock s with
  | none => none
  | some s1 =>
    match killAllLoop graceful (s1.processes.map Prod.fst) s1 with
    | none => none
    | some s2 => some (releaseLock s2)

/-- One row of `StreamProcessManager.get_process_info()` output. -/
structure SessionSnapshot where
  url : String
  quality : String
  clients : List ClientInfo
  running : Bool
  start_time : Nat
deriving DecidableEq, Repr

/-- `StreamProcessManager.get_process_info()` (lines 102-131): inside
`with self.lock:`, one snapshot row per dict entry.  Every stored client
is a two-member tuple here, so the `isinstance` formatting branch always
takes the tuple case and the formatted list is the client list itself. -/
def get_process_info (s : ManagerState) : Option (List SessionSnapshot × ManagerState) :=
  match acquireLock s with
  | none => none
  | some s1 =>
    some (s1.processes.map (fun kv =>
      { url := kv.1, quality := kv.2.quality, clients := kv.2.clients,
        running := kv.2.process.alive, start_time := kv.2.start_time }),
      releaseLock s1)

/-- Hexadecimal digit value, as `urllib.parse.unquote` accepts it. -/
def hexVal (c : Char) : Option Nat :=
  if '0' ≤ c ∧ c ≤ '9' then some (c.toNat - '0'.toNat)
  else if 'a' ≤ c ∧ c ≤ 'f' then some (c.toNat - 'a'.toNat + 10)
  else if 'A' ≤ c ∧ c ≤ 'F' then some (c.toNat - 'A'.toNat + 10)
  else none

/-- Character-level percent decoding. -/
def pyUnquoteAux : List Char → List Char
  | [] => []
  | '%' :: a :: b :: rest =>
    match hexVal a, hexVal b with
    | some x, some y => Char.ofNat (16 * x + y) :: pyUnquoteAux rest
    | _, _ => '%' :: pyUnquoteAux (a :: b :: rest)
  | c :: rest => c :: pyUnquoteAux rest

/-- Modelled collaborator `urllib.parse.unquote` on a `str` argument:
percent-decoding (single-byte; the multi-byte UTF-8 recombination of the
library does not matter to any claim).  `unquote(None)` — the missing
query parameter case — raises `TypeError` and is modelled at the call
site in `stream`. -/
def pyUnquote (raw : String) : String :=
  String.mk (pyUnquoteAux raw.data)

/-- Outcome of the source-resolution middle section of the `/stream`
handler (the `streamlink --json` probe, the `youtube-dl` fallback and the
`stream_info['streams'].get(quality)` check, lines 152-190): an external
collaborator per the spec.  `infoError` is the 500 'Failed to retrieve
stream info' branch, `noStreams` the 404 'No valid streams found'
branches, `resolved` carries the (possibly rewritten by the fallback)
url passed on to `get_process`. -/
inductive ResolveOutcome where
  | infoError
  | noStreams
  | resolved (finalUrl : String)
deriving DecidableEq, Repr

/-- The observable response of the `/stream` route. -/
inductive StreamResp where
  /-- An exception escaped the handler outside any `try`: the framework
  answers 500 with an HTML error page, not a handler-built JSON body. -/
  | crash
  /-- `jsonify({'error': 'URL parameter is required'}), 400`. -/
  | badRequestMissingUrl
  /-- `jsonify({'error': 'Failed to retrieve stream info', ...}), 500`. -/
  | infoError500
  /-- `jsonify({'error': 'No valid streams found'}), 404`. -/
  | notFound404
  /-- The outer `except` branch: `jsonify({'error': str(e)}), 500`. -/
  | launchError500
  /-- 200 with `content_type='video/mp2t'` pumping from this process. -/
  | streaming (p : ProcessState)
deriving DecidableEq, Repr

/-- The `/stream` handler (lines 143-232) up to and including the
`get_process` call, the byte pump excluded.  `urlParam`/`qualityParam`
are `request.args.get('url')` / `request.args.get('quality')`.  With the
`url` parameter missing, `unquote(None)` raises `TypeError` BEFORE the
`try:` block, so the exception escapes the handler (`crash`); with it
present, the decoded empty string fails `if not url` and returns 400.
Resolution is the `resolve` oracle; `get_process` failure surfaces via
the outer `except` as a 500 JSON body. -/
def stream (s : ManagerState) (urlParam qualityParam : Option String)
    (resolve : String → String → ResolveOutcome) (launchOk : Bool)
    (client : ClientInfo) : StreamResp × ManagerState :=
  match urlParam with
  | none => (StreamResp.crash, s)
  | some raw =>
    let url := pyUnquote raw
    if url = "" then (StreamResp.badRequestMissingUrl, s)
    else
      let quality := qualityParam.getD "best"
      match resolve url quality with
      | ResolveOutcome.infoError => (StreamResp.infoError500, s)
      | ResolveOutcome.noStreams => (StreamResp.notFound404, s)
      | ResolveOutcome.resolved finalUrl =>
        match get_process s finalUrl quality client launchOk with
        | none => (StreamResp.crash, s)
        | some (Except.ok p, s') => (StreamResp.streaming p, s')
        | some (Except.error _, s') => (StreamResp.launchError500, s')

/-! ## Concrete fixtures used by witnesses and counterexamples -/

/-- A first concrete client. -/
def clientA : ClientInfo := ⟨"10.0.0.1", "VLC"⟩

/-- A second concrete client. -/
def clientB : ClientInfo := ⟨"10.0.0.2", "mpv"⟩

/-- A freshly launched, still-running process. -/
def procLive : ProcessState :=
  { pid := 0, alive := true, terminated := false, killed := false,
    stdoutClosed := false, stderrClosed := false }

/-- A process that has exited on its own: `poll()` returns a code, nothing
was ever terminated, killed or closed. -/
def procGone : ProcessState :=
  { pid := 0, alive := false, terminated := false, killed := false,
    stdoutClosed := false, stderrClosed := false }

/-- A session whose process is running. -/
def sessLive : SessionInfo :=
  { process := procLive, quality := "best", clients := [clientA], start_time := 0 }

/-- A session whose process has already exited. -/
def sessGone : SessionInfo :=
  { process := procGone, quality := "best", clients := [clientA], start_time := 0 }

/-- A registry holding one live session for source `"A"`. -/
def mgrLive : ManagerState :=
  { processes := [("A", sessLive)], locked := false, clock := 1, nextPid := 1,
    launches := 1 }

/-- A registry holding one stale (dead-process) session for source `"A"`. -/
def mgrGone : ManagerState :=
  { processes := [("A", sessGone)], locked := false, clock := 1, nextPid := 1,
    launches := 1 }

/-! ## Association-list lemmas -/

theorem lookupA_insertA_self (l : List (String × SessionInfo)) (k : String)
    (v : SessionInfo) : lookupA (insertA l k v) k = some v := by
  induction l with
  | nil => simp [insertA, lookupA]
  | cons hd tl ih =>
    obtain ⟨k', w⟩ := hd
    by_cases h : k' = k <;> simp [insertA, lookupA, h, ih]

theorem lookupA_eraseA_self (l : List (String × SessionInfo)) (k : String) :
    lookupA (eraseA l k) k = none := by
  induction l with
  | nil => simp [eraseA, lookupA]
  | cons hd tl ih =>
    obtain ⟨k', w⟩ := hd
    by_cases h : k' = k <;> simp [eraseA, lookupA, h, ih]

theorem eraseA_of_lookup_none (l : List (String × SessionInfo)) (k : String)
    (h : lookupA l k = none) : eraseA l k = l := by
  induction l with
  | nil => simp [eraseA]
  | cons hd tl ih =>
    obtain ⟨k', w⟩ := hd
    by_cases hk : k' = k
    · simp [lookupA, hk] at h
    · simp [lookupA, hk] at h
      simp [eraseA, hk, ih h]

theorem insertA_of_lookup_self (l : List (String × SessionInfo)) (k : String)
    (v : SessionInfo) (h : lookupA l k = some v) : insertA l k v = l := by
  induction l with
  | nil => simp [lookupA] at h
  | cons hd tl ih =>
    obtain ⟨k', w⟩ := hd
    by_cases hk : k' = k
    · simp [lookupA, hk] at h
      simp [insertA, hk, h]
    · simp [lookupA, hk] at h
      simp [insertA, hk, ih h]

theorem insertA_insertA_self (l : List (String × SessionInfo)) (k : String)
    (v w : SessionInfo) : insertA (insertA l k v) k w = insertA l k w := by
  induction l with
  | nil => simp [insertA]
  | cons hd tl ih =>
    obtain ⟨k', u⟩ := hd
    by_cases hk : k' = k <;> simp [insertA, hk, ih]

theorem lookupA_mem (l : List (String × SessionInfo)) (k : String)
    (v : SessionInfo) (h : lookupA l k = some v) : (k, v) ∈ l := by
  induction l with
  | nil => simp [lookupA] at h
  | cons hd tl ih =>
    obtain ⟨k', w⟩ := hd
    by_cases hk : k' = k
    · simp [lookupA, hk] at h
      simp [hk, h]
    · simp [lookupA, hk] at h
      exact List.mem_cons_of_mem _ (ih h)

theorem mem_fst_insertA (l : List (String × SessionInfo)) (k : String)
    (v : SessionInfo) (a : String) :
    a ∈ (insertA l k v).map Prod.fst ↔ a ∈ l.map Prod.fst ∨ a = k := by
  induction l with
  | nil => simp [insertA]
  | cons hd tl ih =>
    obtain ⟨k', w⟩ := hd
    by_cases hk : k' = k
    · subst hk
      by_cases ha : a = k' <;> simp [insertA, ha]
    · simp [insertA, hk, ih]
      tauto

theorem nodup_fst_insertA (l : List (String × SessionInfo)) (k : String)
    (v : SessionInfo) (h : (l.map Prod.fst).Nodup) :
    ((insertA l k v).map Prod.fst).Nodup := by
  induction l with
  | nil => simp [insertA]
  | cons hd tl ih =>
    obtain ⟨k', w⟩ := hd
    rw [List.map_cons, List.nodup_cons] at h
    by_cases hk : k' = k
    · subst hk
      simpa [insertA] using h
    · simp only [insertA, if_neg hk, List.map_cons, List.nodup_cons]
      refine ⟨fun hmem => ?_, ih h.2⟩
      rcases (mem_fst_insertA tl k v k').mp hmem with h1 | h2
      · exact h.1 h1
      · exact hk h2

theorem sublist_fst_eraseA (l : List (String × SessionInfo)) (k : String) :
    ((eraseA l k).map Prod.fst).Sublist (l.map Prod.fst) := by
  induction l with
  | nil => simp [eraseA]
  | cons hd tl ih =>
    obtain ⟨k', w⟩ := hd
    by_cases hk : k' = k
    · simp only [eraseA, hk, if_pos rfl, List.map_cons]
      exact ih.trans (List.sublist_cons_self _ _)
    · simp only [eraseA, hk, if_neg hk, List.map_cons]
      exact ih.cons₂ _

theorem nodup_fst_eraseA (l : List (String × SessionInfo)) (k : String)
    (h : (l.map Prod.fst).Nodup) : ((eraseA l k).map Prod.fst).Nodup :=
  h.sublist (sublist_fst_eraseA l k)

/-! ## Branch characterizations of the manager operations (entered with the
lock free, as every top-level call site does) -/

theorem get_process_alive_eq (s : ManagerState) (url q : String) (c : ClientInfo)
    (lk : Bool) (sess : SessionInfo) (hl : s.locked = false)
    (hs : lookupA s.processes url = some sess)
    (halive : sess.process.alive = true) :
    get_process s url q c lk =
      some (Except.ok sess.process,
        { s with processes := insertA s.processes url { sess with clients := addClient sess.clients c } }) := by
  obtain ⟨procs, lck, ck, np, la⟩ := s
  simp only at hl hs
  subst hl
  simp [get_process, acquireLock, releaseLock, hs, halive]

theorem get_process_dead_relaunch_eq (s : ManagerState) (url q : String)
    (c : ClientInfo) (sess : SessionInfo) (hl : s.locked = false)
    (hs : lookupA s.processes url = some sess)
    (hdead : sess.process.alive = false) :
    get_process s url q c true =
      some (Except.ok ⟨s.nextPid, true, false, false, false, false⟩,
        { s with
            processes := insertA (eraseA s.processes url) url
              ⟨⟨s.nextPid, true, false, false, false, false⟩, q, [c], s.clock⟩,
            nextPid := s.nextPid + 1, launches := s.launches + 1,
            clock := s.clock + 1 }) := by
  obtain ⟨procs, lck, ck, np, la⟩ := s
  simp only at hl hs
  subst hl
  simp [get_process, acquireLock, releaseLock, run_streamlink, hs, hdead]

theorem get_process_dead_launch_fail_eq (s : ManagerState) (url q : String)
    (c : ClientInfo) (sess : SessionInfo) (hl : s.locked = false)
    (hs : lookupA s.processes url = some sess)
    (hdead : sess.process.alive = false) :
    get_process s url q c false =
      some (Except.error (),
        { s with processes := eraseA s.processes url,
                 launches := s.launches + 1 }) := by
  obtain ⟨procs, lck, ck, np, la⟩ := s
  simp only at hl hs
  subst hl
  simp [get_process, acquireLock, releaseLock, run_streamlink, hs, hdead]

theorem get_process_absent_launch_eq (s : ManagerState) (url q : String)
    (c : ClientInfo) (hl : s.locked = false)
    (hn : lookupA s.processes url = none) :
    get_process s url q c true =
      some (Except.ok ⟨s.nextPid, true, false, false, false, false⟩,
        { s with
            processes := insertA s.processes url
              ⟨⟨s.nextPid, true, false, false, false, false⟩, q, [c], s.clock⟩,
            nextPid := s.nextPid + 1, launches := s.launches + 1,
            clock := s.clock + 1 }) := by
  obtain ⟨procs, lck, ck, np, la⟩ := s
  simp only at hl hn
  subst hl
  simp [get_process, acquireLock, releaseLock, run_streamlink, hn]

theorem get_process_absent_launch_fail_eq (s : ManagerState) (url q : String)
    (c : ClientInfo) (hl : s.locked = false)
    (hn : lookupA s.processes url = none) :
    get_process s url q c false =
      some (Except.error (), { s with launches := s.launches + 1 }) := by
  obtain ⟨procs, lck, ck, np, la⟩ := s
  simp only at hl hn
  subst hl
  simp [get_process, acquireLock, releaseLock, run_streamlink, hn]

theorem remove_client_present_eq (s : ManagerState) (url a ua : String)
    (sess : SessionInfo) (hl : s.locked = false)
    (hs : lookupA s.processes url = some sess) :
    remove_client s url a ua =
      some { s with processes := insertA s.processes url { sess with clients := discardClient sess.clients ⟨a, ua⟩ } } := by
  obtain ⟨procs, lck, ck, np, la⟩ := s
  simp only at hl hs
  subst hl
  simp [remove_client, acquireLock, releaseLock, hs]

theorem remove_client_absent_eq (s : ManagerState) (url a ua : String)
    (hl : s.locked = false) (hn : lookupA s.processes url = none) :
    remove_client s url a ua = some s := by
  obtain ⟨procs, lck, ck, np, la⟩ := s
  simp only at hl hn
  subst hl
  simp [remove_client, acquireLock, releaseLock, hn]

theorem kill_process_absent_eq (s : ManagerState) (url : String) (g : Bool)
    (hl : s.locked = false) (hn : lookupA s.processes url = none) :
    kill_process s url g = some (false, none, s) := by
  obtain ⟨procs, lck, ck, np, la⟩ := s
  simp only at hl hn
  subst hl
  simp [kill_process, acquireLock, releaseLock, hn]

theorem kill_process_alive_eq (s : ManagerState) (url : String) (g : Bool)
    (sess : SessionInfo) (hl : s.locked = false)
    (hs : lookupA s.processes url = some sess)
    (halive : sess.process.alive = true) :
    kill_process s url g =
      some (true,
        some { sess.process with alive := false, terminated := true, killed := !g, stdoutClosed := true, stderrClosed := true },
        { s with processes := eraseA s.processes url }) := by
  obtain ⟨procs, lck, ck, np, la⟩ := s
  simp only at hl hs
  subst hl
  simp [kill_process, acquireLock, releaseLock, hs, halive]

theorem kill_process_dead_eq (s : ManagerState) (url : String) (g : Bool)
    (sess : SessionInfo) (hl : s.locked = false)
    (hs : lookupA s.processes url = some sess)
    (hdead : sess.process.alive = false) :
    kill_process s url g =
      some (true, some sess.process,
        { s with processes := eraseA s.processes url }) := by
  obtain ⟨procs, lck, ck, np, la⟩ := s
  simp only at hl hs
  subst hl
  simp [kill_process, acquireLock, releaseLock, hs, hdead]

theorem kill_all_empty_eq (s : ManagerState) (g : Bool) (hl : s.locked = false)
    (h : s.processes = []) : kill_all_processes s g = some s := by
  obtain ⟨procs, lck, ck, np, la⟩ := s
  simp only at hl h
  subst hl; subst h
  simp [kill_all_processes, acquireLock, releaseLock, killAllLoop]

theorem kill_all_nonempty_none (s : ManagerState) (g : Bool)
    (h : s.processes ≠ []) : kill_all_processes s g = none := by
  obtain ⟨procs, lck, ck, np, la⟩ := s
  simp only at h
  cases procs with
  | nil => exact absurd rfl h
  | cons hd tl =>
    cases lck <;>
      simp [kill_all_processes, acquireLock, killAllLoop, kill_process]

theorem get_process_info_eq (s : ManagerState) (hl : s.locked = false) :
    get_process_info s =
      some (s.processes.map (fun kv =>
        { url := kv.1, quality := kv.2.quality, clients := kv.2.clients,
          running := kv.2.process.alive, start_time := kv.2.start_time }),
        s) := by
  obtain ⟨procs, lck, ck, np, la⟩ := s
  simp only at hl
  subst hl
  simp [get_process_info, acquireLock, releaseLock]

/-! ## Client-set lemmas -/

theorem mem_addClient_self (cl : List ClientInfo) (c : ClientInfo) :
    c ∈ addClient cl c := by
  unfold addClient
  split <;> simp_all

theorem mem_addClient_of_mem (cl : List ClientInfo) (c x : ClientInfo)
    (h : x ∈ cl) : x ∈ addClient cl c := by
  unfold addClient
  split <;> simp_all

theorem not_mem_discardClient (cl : List ClientInfo) (c : ClientInfo) :
    c ∉ discardClient cl c := by
  simp [discardClient]

theorem mem_discardClient_of_ne (cl : List ClientInfo) (c x : ClientInfo)
    (h : x ∈ cl) (hne : x ≠ c) : x ∈ discardClient cl c := by
  simp [discardClient, h, hne]

theorem discardClient_length_le (cl : List ClientInfo) (c : ClientInfo) :
    (discardClient cl c).length ≤ cl.length :=
  List.length_filter_le _ _

theorem discardClient_of_not_mem (cl : List ClientInfo) (c : ClientInfo)
    (h : c ∉ cl) : discardClient cl c = cl := by
  apply List.filter_eq_self.mpr
  intro x hx
  simp only [ne_eq, decide_not, Bool.not_eq_eq_eq_not, Bool.not_true,
    decide_eq_false_iff_not]
  rintro rfl
  exact h hx

theorem discardClient_idem (cl : List ClientInfo) (c : ClientInfo) :
    discardClient (discardClient cl c) c = discardClient cl c := by
  induction cl with
  | nil => simp [discardClient]
  | cons hd tl ih =>
    by_cases h : hd = c <;>
      simp_all [discardClient, List.filter]

/-! ## Claim theorems -/

/-- C1: for every registry state containing a Session for `url` whose
process is alive, `Acquire` (`get_process`) adds the client to that
Session's client set (keeping the previous members) and returns the
existing Session's process handle, performing no new launch, for any
requested quality and any launcher environment. -/
theorem claim1_acquire_live_reuses (s : ManagerState) (url q : String)
    (c : ClientInfo) (lk : Bool) (sess : SessionInfo) (hl : s.locked = false)
    (hs : lookupA s.processes url = some sess)
    (halive : sess.process.alive = true) :
    ∃ s', get_process s url q c lk = some (Except.ok sess.process, s') ∧
      lookupA s'.processes url =
        some { sess with clients := addClient sess.clients c } ∧
      c ∈ addClient sess.clients c ∧
      (∀ x ∈ sess.clients, x ∈ addClient sess.clients c) ∧
      s'.launches = s.launches := by
  refine ⟨_, get_process_alive_eq s url q c lk sess hl hs halive, ?_, ?_, ?_, rfl⟩
  · exact lookupA_insertA_self _ _ _
  · exact mem_addClient_self _ _
  · exact fun x hx => mem_addClient_of_mem _ _ _ hx

/-- C1 witness: a second client acquiring the live session of `mgrLive`. -/
theorem claim1_witness :
    ∃ s', get_process mgrLive "A" "720p" clientB false =
        some (Except.ok sessLive.process, s') ∧
      lookupA s'.processes "A" =
        some { sessLive with clients := addClient sessLive.clients clientB } ∧
      clientB ∈ addClient sessLive.clients clientB ∧
      (∀ x ∈ sessLive.clients, x ∈ addClient sessLive.clients clientB) ∧
      s'.launches = mgrLive.launches :=
  claim1_acquire_live_reuses mgrLive "A" "720p" clientB false sessLive
    (by decide) (by decide) (by decide)

/-- C10: when a live Session exists for `url`, `Acquire` with any requested
quality `q'` ignores it: the existing handle is returned, and the stored
Session keeps its recorded quality, its process and its start time
unchanged (only the client set grows); no launch is performed. -/
theorem claim10_quality_ignored (s : ManagerState) (url q' : String)
    (c : ClientInfo) (lk : Bool) (sess : SessionInfo) (hl : s.locked = false)
    (hs : lookupA s.processes url = some sess)
    (halive : sess.process.alive = true) :
    ∃ s', get_process s url q' c lk = some (Except.ok sess.process, s') ∧
      (∀ sess', lookupA s'.processes url = some sess' →
        sess'.quality = sess.quality ∧ sess'.process = sess.process ∧
        sess'.start_time = sess.start_time) ∧
      s'.launches = s.launches ∧ s'.nextPid = s.nextPid := by
  refine ⟨_, get_process_alive_eq s url q' c lk sess hl hs halive, ?_, rfl, rfl⟩
  intro sess' h
  rw [lookupA_insertA_self _ _ _] at h
  cases h
  exact ⟨rfl, rfl, rfl⟩

/-- C10 witness: requesting quality `"720p"` against a session launched
with `"best"`. -/
theorem claim10_witness :
    ∃ s', get_process mgrLive "A" "720p" clientB true =
        some (Except.ok sessLive.process, s') ∧
      (∀ sess', lookupA s'.processes "A" = some sess' →
        sess'.quality = sessLive.quality ∧ sess'.process = sessLive.process ∧
        sess'.start_time = sessLive.start_time) ∧
      s'.launches = mgrLive.launches ∧ s'.nextPid = mgrLive.nextPid :=
  claim10_quality_ignored mgrLive "A" "720p" clientB true sessLive
    (by decide) (by decide) (by decide)

/-- Every stored start time was read off the clock strictly before now:
true of every state the manager can reach, since `run_streamlink` stamps
the current clock value and then advances it. -/
def TimeInv (s : ManagerState) : Prop :=
  ∀ kv ∈ s.processes, kv.2.start_time < s.clock

instance (s : ManagerState) : Decidable (TimeInv s) := by
  unfold TimeInv
  infer_instance

/-- C3: when `Acquire` finds the Session's process dead, it removes the
stale Session and (launch succeeding) creates a replacement whose start
time — the current clock — is strictly later than the replaced Session's
start time and whose client set is exactly the one requesting client;
the caller receives the new handle, not an error. -/
theorem claim3_restart_on_death (s : ManagerState) (url q : String)
    (c : ClientInfo) (sess : SessionInfo) (hl : s.locked = false)
    (hs : lookupA s.processes url = some sess)
    (hdead : sess.process.alive = false) (ht : TimeInv s) :
    ∃ p s', get_process s url q c true = some (Except.ok p, s') ∧
      lookupA s'.processes url =
        some { process := p, quality := q, clients := [c], start_time := s.clock } ∧
      sess.start_time < s.clock := by
  refine ⟨_, _, get_process_dead_relaunch_eq s url q c sess hl hs hdead, ?_, ?_⟩
  · exact lookupA_insertA_self _ _ _
  · exact ht (url, sess) (lookupA_mem _ _ _ hs)

/-- C3 witness: restarting the stale session of `mgrGone`. -/
theorem claim3_witness :
    ∃ p s', get_process mgrGone "A" "best" clientB true =
        some (Except.ok p, s') ∧
      lookupA s'.processes "A" =
        some { process := p, quality := "best", clients := [clientB],
               start_time := mgrGone.clock } ∧
      sessGone.start_time < mgrGone.clock :=
  claim3_restart_on_death mgrGone "A" "best" clientB sessGone
    (by decide) (by decide) (by decide) (by decide)

theorem lookupA_none_iff_not_mem_fst (l : List (String × SessionInfo))
    (k : String) : lookupA l k = none ↔ k ∉ l.map Prod.fst := by
  induction l with
  | nil => simp [lookupA]
  | cons hd tl ih =>
    obtain ⟨k', w⟩ := hd
    by_cases hk : k' = k <;> simp [lookupA, hk, ih]
    tauto

/-- C4 counterexample: on a Session whose process has already exited
(`mgrGone`), `kill_process` returns `true` and removes the entry, but it
never attempts `terminate()` and never closes either pipe — the final
state of the `Popen` object is exactly the untouched `procGone` — so the
claim's unconditional "attempts graceful `terminate()` … closes the pipe"
is false on this input. -/
theorem claim4_counterexample :
    lookupA mgrGone.processes "A" = some sessGone ∧
    kill_process mgrGone "A" true =
      some (true, some procGone, { mgrGone with processes := [] }) ∧
    procGone.terminated = false ∧ procGone.killed = false ∧
    procGone.stdoutClosed = false ∧ procGone.stderrClosed = false := by
  decide

/-- C4 amended: `Kill(source)` returns `false` and leaves the state
unchanged when no Session for `source` exists.  When a Session exists and
its process is still alive, it terminates it (gracefully within the grace
period, else force-kills), closes both pipes, removes the entry and
returns `true`; when a Session exists whose process has already exited,
it removes the entry and returns `true` WITHOUT touching the process or
its pipes.  In both present cases the source is absent from every
subsequent `ListSessions` (`get_process_info`) output. -/
theorem claim4_kill_amended (s : ManagerState) (url : String) (g : Bool)
    (hl : s.locked = false) :
    (lookupA s.processes url = none →
      kill_process s url g = some (false, none, s)) ∧
    (∀ sess, lookupA s.processes url = some sess → sess.process.alive = true →
      kill_process s url g =
        some (true,
          some { sess.process with alive := false, terminated := true, killed := !g, stdoutClosed := true, stderrClosed := true },
          { s with processes := eraseA s.processes url })) ∧
    (∀ sess, lookupA s.processes url = some sess → sess.process.alive = false →
      kill_process s url g =
        some (true, some sess.process,
          { s with processes := eraseA s.processes url })) ∧
    (∀ snap s2,
      get_process_info { s with processes := eraseA s.processes url } =
        some (snap, s2) →
      url ∉ snap.map SessionSnapshot.url) := by
  refine ⟨fun hn => kill_process_absent_eq s url g hl hn,
    fun sess hs ha => kill_process_alive_eq s url g sess hl hs ha,
    fun sess hs hd => kill_process_dead_eq s url g sess hl hs hd,
    ?_⟩
  intro snap s2 h
  rw [get_process_info_eq _ (by exact hl)] at h
  obtain ⟨rfl, rfl⟩ := Prod.mk.injEq .. ▸ (Option.some.inj h)
  rw [List.map_map]
  have : ((eraseA s.processes url).map
      (SessionSnapshot.url ∘ fun kv =>
        ({ url := kv.1, quality := kv.2.quality, clients := kv.2.clients,
           running := kv.2.process.alive,
           start_time := kv.2.start_time } : SessionSnapshot))) =
      (eraseA s.processes url).map Prod.fst := by
    simp
  rw [this]
  exact (lookupA_none_iff_not_mem_fst _ _).mp (lookupA_eraseA_self _ _)

/-- C4 witness: the amended characterization instantiated on the live
one-session registry. -/
theorem claim4_witness :
    (lookupA mgrLive.processes "A" = none →
      kill_process mgrLive "A" true = some (false, none, mgrLive)) ∧
    (∀ sess, lookupA mgrLive.processes "A" = some sess →
      sess.process.alive = true →
      kill_process mgrLive "A" true =
        some (true,
          some { sess.process with alive := false, terminated := true, killed := !true, stdoutClosed := true, stderrClosed := true },
          { mgrLive with processes := eraseA mgrLive.processes "A" })) ∧
    (∀ sess, lookupA mgrLive.processes "A" = some sess →
      sess.process.alive = false →
      kill_process mgrLive "A" true =
        some (true, some sess.process,
          { mgrLive with processes := eraseA mgrLive.processes "A" })) ∧
    (∀ snap s2,
      get_process_info
          { mgrLive with processes := eraseA mgrLive.processes "A" } =
        some (snap, s2) →
      "A" ∉ snap.map SessionSnapshot.url) :=
  claim4_kill_amended mgrLive "A" true (by decide)

deriving instance DecidableEq for Except

/-- C6 counterexample: a stale (dead-process) Session for `"A"` is a
state with no live Session, yet when the launch fails during `Acquire`
the registry map is NOT exactly as before the call — the stale entry has
been deleted before `run_streamlink` raised — refuting the claim's
"registry map is exactly as it was before the Acquire call". -/
theorem claim6_counterexample :
    sessGone.process.alive = false ∧
    lookupA mgrGone.processes "A" = some sessGone ∧
    get_process mgrGone "A" "best" clientB false =
      some (Except.error (), { mgrGone with processes := [], launches := 2 }) ∧
    ({ mgrGone with processes := [], launches := 2 } : ManagerState).processes ≠
      mgrGone.processes := by
  decide

/-- C6 amended: if the launch fails during `Acquire` for a source with no
live Session, the failure propagates to the caller as an error and no
Session is created: afterwards the source is absent from the registry and
the map equals the pre-call map with the source's (stale) entry removed —
in particular, when the source was absent rather than stale, the map is
exactly unchanged. -/
theorem claim6_launch_fail_amended (s : ManagerState) (url q : String)
    (c : ClientInfo) (hl : s.locked = false)
    (hnolive : ∀ sess, lookupA s.processes url = some sess →
      sess.process.alive = false) :
    ∃ s', get_process s url q c false = some (Except.error (), s') ∧
      s'.processes = eraseA s.processes url ∧
      lookupA s'.processes url = none ∧
      (lookupA s.processes url = none → s'.processes = s.processes) := by
  cases hcase : lookupA s.processes url with
  | none =>
    refine ⟨_, get_process_absent_launch_fail_eq s url q c hl hcase, ?_, ?_,
      fun _ => rfl⟩
    · exact (eraseA_of_lookup_none _ _ hcase).symm
    · exact hcase
  | some sess =>
    have hd := hnolive sess hcase
    refine ⟨_, get_process_dead_launch_fail_eq s url q c sess hl hcase hd,
      rfl, ?_, ?_⟩
    · exact lookupA_eraseA_self _ _
    · exact fun h => Option.noConfusion h

/-- C6 witness: launch failure on the stale one-session registry. -/
theorem claim6_witness :
    ∃ s', get_process mgrGone "A" "best" clientB false =
        some (Except.error (), s') ∧
      s'.processes = eraseA mgrGone.processes "A" ∧
      lookupA s'.processes "A" = none ∧
      (lookupA mgrGone.processes "A" = none →
        s'.processes = mgrGone.processes) :=
  claim6_launch_fail_amended mgrGone "A" "best" clientB (by decide)
    (fun sess h => by
      have h0 : lookupA mgrGone.processes "A" = some sessGone := by decide
      rw [h0] at h
      cases h
      decide)

/-- C7: `ReleaseClient` (`remove_client`) removes the client pair from the
Session's client set when the Session exists — keeping every other member
— is a complete no-op when the Session is absent and also when the client
is absent from the set, never touches the Session's process and never
removes the Session from the map, and the client set stays a well-defined
finite set whose size never grows (no underflow: removing an absent
member changes nothing). -/
theorem claim7_release_client (s : ManagerState) (url a ua : String)
    (hl : s.locked = false) :
    (lookupA s.processes url = none → remove_client s url a ua = some s) ∧
    (∀ sess, lookupA s.processes url = some sess →
      ∃ s', remove_client s url a ua = some s' ∧
        lookupA s'.processes url =
          some { sess with clients := discardClient sess.clients ⟨a, ua⟩ } ∧
        ClientInfo.mk a ua ∉ discardClient sess.clients ⟨a, ua⟩ ∧
        (∀ x ∈ sess.clients, x ≠ ClientInfo.mk a ua →
          x ∈ discardClient sess.clients ⟨a, ua⟩) ∧
        ({ sess with clients := discardClient sess.clients ⟨a, ua⟩ }).process =
          sess.process ∧
        (discardClient sess.clients ⟨a, ua⟩).length ≤ sess.clients.length ∧
        (ClientInfo.mk a ua ∉ sess.clients →
          remove_client s url a ua = some s)) := by
  refine ⟨fun hn => remove_client_absent_eq s url a ua hl hn, ?_⟩
  intro sess hs
  refine ⟨_, remove_client_present_eq s url a ua sess hl hs,
    lookupA_insertA_self _ _ _, not_mem_discardClient _ _,
    fun x hx hne => mem_discardClient_of_ne _ _ _ hx hne, rfl,
    discardClient_length_le _ _, ?_⟩
  intro habs
  rw [remove_client_present_eq s url a ua sess hl hs,
    discardClient_of_not_mem _ _ habs]
  rw [show ({ sess with clients := sess.clients } : SessionInfo) = sess from rfl,
    insertA_of_lookup_self _ _ _ hs]

/-- C7 witness: releasing `clientA` from the live one-session registry. -/
theorem claim7_witness :
    (lookupA mgrLive.processes "A" = none →
      remove_client mgrLive "A" "10.0.0.1" "VLC" = some mgrLive) ∧
    (∀ sess, lookupA mgrLive.processes "A" = some sess →
      ∃ s', remove_client mgrLive "A" "10.0.0.1" "VLC" = some s' ∧
        lookupA s'.processes "A" =
          some { sess with clients := discardClient sess.clients ⟨"10.0.0.1", "VLC"⟩ } ∧
        ClientInfo.mk "10.0.0.1" "VLC" ∉
          discardClient sess.clients ⟨"10.0.0.1", "VLC"⟩ ∧
        (∀ x ∈ sess.clients, x ≠ ClientInfo.mk "10.0.0.1" "VLC" →
          x ∈ discardClient sess.clients ⟨"10.0.0.1", "VLC"⟩) ∧
        ({ sess with clients := discardClient sess.clients ⟨"10.0.0.1", "VLC"⟩ }).process =
          sess.process ∧
        (discardClient sess.clients ⟨"10.0.0.1", "VLC"⟩).length ≤
          sess.clients.length ∧
        (ClientInfo.mk "10.0.0.1" "VLC" ∉ sess.clients →
          remove_client mgrLive "A" "10.0.0.1" "VLC" = some mgrLive)) :=
  claim7_release_client mgrLive "A" "10.0.0.1" "VLC" (by decide)

/-- C8: `ReleaseClient` is idempotent — applying `remove_client` twice in
succession (threading the registry state) yields exactly the state of
applying it once, so duplicate disconnect-cleanup paths are harmless. -/
theorem claim8_release_idempotent (s : ManagerState) (url a ua : String)
    (hl : s.locked = false) :
    (remove_client s url a ua).bind (fun t => remove_client t url a ua) =
      remove_client s url a ua := by
  cases hcase : lookupA s.processes url with
  | none =>
    rw [remove_client_absent_eq s url a ua hl hcase, Option.some_bind,
      remove_client_absent_eq s url a ua hl hcase]
  | some sess =>
    rw [remove_client_present_eq s url a ua sess hl hcase, Option.some_bind,
      remove_client_present_eq _ url a ua
        { sess with clients := discardClient sess.clients ⟨a, ua⟩ }
        (by exact hl) (lookupA_insertA_self _ _ _)]
    simp only [discardClient_idem, insertA_insertA_self]

/-- C8 witness: double release of `clientA` on the live registry. -/
theorem claim8_witness :
    (remove_client mgrLive "A" "10.0.0.1" "VLC").bind
        (fun t => remove_client t "A" "10.0.0.1" "VLC") =
      remove_client mgrLive "A" "10.0.0.1" "VLC" :=
  claim8_release_idempotent mgrLive "A" "10.0.0.1" "VLC" (by decide)

/-- C2: evaluation of the code at the failing input.  `kill_all_processes`
holds the non-reentrant `self.lock` while calling `kill_process`, which
tries to acquire the same lock, so with ANY non-empty registry the call
never returns (`none`) and removes nothing; it returns only on an already
empty registry.  This contradicts the claim that `KillAll()` terminates
leaving zero live Sessions regardless of how many existed. -/
theorem claim2_kill_all_deadlocks :
    kill_all_processes mgrLive true = none ∧
    kill_all_processes mgrLive false = none ∧
    kill_all_processes mgrGone true = none ∧
    kill_all_processes initialManager true = some initialManager := by
  decide

/-- Resolution oracle for the C5 evaluation; never reached on the C5
inputs, which fail before source resolution. -/
def resolveNone : String → String → ResolveOutcome :=
  fun _ _ => ResolveOutcome.noStreams

/-- C5: evaluation of the `/stream` handler at the failing input.  With
the `url` query parameter MISSING, `unquote(None)` raises `TypeError`
before the `if not url` test and outside the `try` block, so the handler
crashes (framework 500 HTML page), not the claimed 400 JSON response;
with `url` present but EMPTY the handler does return 400.  In both cases
the registry is unchanged (no Session is created). -/
theorem claim5_stream_url_param :
    stream initialManager none none resolveNone true clientA =
      (StreamResp.crash, initialManager) ∧
    stream initialManager (some "") none resolveNone true clientA =
      (StreamResp.badRequestMissingUrl, initialManager) ∧
    stream mgrLive none (some "best") resolveNone true clientB =
      (StreamResp.crash, mgrLive) := by
  decide

/-- Keys of the registry map are pairwise distinct: each source maps to at
most one Session. -/
def KeysNodup (s : ManagerState) : Prop :=
  (s.processes.map Prod.fst).Nodup

instance (s : ManagerState) : Decidable (KeysNodup s) := by
  unfold KeysNodup
  infer_instance

/-- One mutating registry operation, as named by the spec. -/
inductive RegistryOp where
  | acquire (url quality : String) (client : ClientInfo) (launchOk : Bool)
  | release (url addr ua : String)
  | kill (url : String) (graceful : Bool)
  | killAll (graceful : Bool)

/-- Run one registry operation, keeping only the resulting state. -/
def applyOp (s : ManagerState) : RegistryOp → Option ManagerState
  | RegistryOp.acquire url q c lk => (get_process s url q c lk).map Prod.snd
  | RegistryOp.release url a ua => remove_client s url a ua
  | RegistryOp.kill url g => (kill_process s url g).map (fun r => r.2.2)
  | RegistryOp.killAll g => kill_all_processes s g

/-- Run a sequence of registry operations; `none` as soon as one blocks. -/
def execOps (s : ManagerState) : List RegistryOp → Option ManagerState
  | [] => some s
  | op :: rest =>
    match applyOp s op with
    | none => none
    | some s1 => execOps s1 rest

theorem get_process_keys_nodup (s : ManagerState) (url q : String)
    (c : ClientInfo) (lk : Bool) (r : Except Unit ProcessState)
    (s' : ManagerState) (h : get_process s url q c lk = some (r, s'))
    (hn : KeysNodup s) : KeysNodup s' := by
  by_cases hl : s.locked = true
  · obtain ⟨procs, lck, ck, np, la⟩ := s
    simp only at hl
    subst hl
    simp [get_process, acquireLock] at h
  · have hl' : s.locked = false := by simpa using hl
    cases hlk : lookupA s.processes url with
    | some sess =>
      by_cases ha : sess.process.alive = true
      · rw [get_process_alive_eq s url q c lk sess hl' hlk ha] at h
        obtain ⟨rfl, rfl⟩ := Prod.mk.injEq .. ▸ Option.some.inj h
        exact nodup_fst_insertA _ _ _ hn
      · have ha' : sess.process.alive = false := by simpa using ha
        cases lk with
        | true =>
          rw [get_process_dead_relaunch_eq s url q c sess hl' hlk ha'] at h
          obtain ⟨rfl, rfl⟩ := Prod.mk.injEq .. ▸ Option.some.inj h
          exact nodup_fst_insertA _ _ _ (nodup_fst_eraseA _ _ hn)
        | false =>
          rw [get_process_dead_launch_fail_eq s url q c sess hl' hlk ha'] at h
          obtain ⟨rfl, rfl⟩ := Prod.mk.injEq .. ▸ Option.some.inj h
          exact nodup_fst_eraseA _ _ hn
    | none =>
      cases lk with
      | true =>
        rw [get_process_absent_launch_eq s url q c hl' hlk] at h
        obtain ⟨rfl, rfl⟩ := Prod.mk.injEq .. ▸ Option.some.inj h
        exact nodup_fst_insertA _ _ _ hn
      | false =>
        rw [get_process_absent_launch_fail_eq s url q c hl' hlk] at h
        obtain ⟨rfl, rfl⟩ := Prod.mk.injEq .. ▸ Option.some.inj h
        exact hn

theorem remove_client_keys_nodup (s : ManagerState) (url a ua : String)
    (s' : ManagerState) (h : remove_client s url a ua = some s')
    (hn : KeysNodup s) : KeysNodup s' := by
  by_cases hl : s.locked = true
  · obtain ⟨procs, lck, ck, np, la⟩ := s
    simp only at hl
    subst hl
    simp [remove_client, acquireLock] at h
  · have hl' : s.locked = false := by simpa using hl
    cases hlk : lookupA s.processes url with
    | some sess =>
      rw [remove_client_present_eq s url a ua sess hl' hlk] at h
      cases Option.some.inj h
      exact nodup_fst_insertA _ _ _ hn
    | none =>
      rw [remove_client_absent_eq s url a ua hl' hlk] at h
      cases Option.some.inj h
      exact hn

theorem kill_process_keys_nodup (s : ManagerState) (url : String) (g : Bool)
    (b : Bool) (op : Option ProcessState) (s' : ManagerState)
    (h : kill_process s url g = some (b, op, s')) (hn : KeysNodup s) :
    KeysNodup s' := by
  by_cases hl : s.locked = true
  · obtain ⟨procs, lck, ck, np, la⟩ := s
    simp only at hl
    subst hl
    simp [kill_process, acquireLock] at h
  · have hl' : s.locked = false := by simpa using hl
    cases hlk : lookupA s.processes url with
    | some sess =>
      by_cases ha : sess.process.alive = true
      · rw [kill_process_alive_eq s url g sess hl' hlk ha] at h
        obtain ⟨rfl, rfl, rfl⟩ := Prod.mk.injEq .. ▸ Option.some.inj h
        exact nodup_fst_eraseA _ _ hn
      · have ha' : sess.process.alive = false := by simpa using ha
        rw [kill_process_dead_eq s url g sess hl' hlk ha'] at h
        obtain ⟨rfl, rfl, rfl⟩ := Prod.mk.injEq .. ▸ Option.some.inj h
        exact nodup_fst_eraseA _ _ hn
    | none =>
      rw [kill_process_absent_eq s url g hl' hlk] at h
      obtain ⟨rfl, rfl, rfl⟩ := Prod.mk.injEq .. ▸ Option.some.inj h
      exact hn

theorem kill_all_keys_nodup (s : ManagerState) (g : Bool) (s' : ManagerState)
    (h : kill_all_processes s g = some s') (hn : KeysNodup s) :
    KeysNodup s' := by
  by_cases hl : s.locked = true
  · obtain ⟨procs, lck, ck, np, la⟩ := s
    simp only at hl
    subst hl
    simp [kill_all_processes, acquireLock] at h
  · have hl' : s.locked = false := by simpa using hl
    cases hp : s.processes with
    | nil =>
      rw [kill_all_empty_eq s g hl' hp] at h
      cases Option.some.inj h
      exact hn
    | cons hd tl =>
      rw [kill_all_nonempty_none s g (by rw [hp]; exact List.cons_ne_nil _ _)] at h
      cases h

theorem applyOp_keys_nodup (s : ManagerState) (op : RegistryOp)
    (s' : ManagerState) (h : applyOp s op = some s') (hn : KeysNodup s) :
    KeysNodup s' := by
  cases op with
  | acquire url q c lk =>
    simp only [applyOp] at h
    cases hg : get_process s url q c lk with
    | none => rw [hg] at h; cases h
    | some pr =>
      rw [hg, Option.map_some'] at h
      cases Option.some.inj h
      exact get_process_keys_nodup s url q c lk pr.1 pr.2
        (by rw [hg]) hn
  | release url a ua =>
    exact remove_client_keys_nodup s url a ua s' h hn
  | kill url g =>
    simp only [applyOp] at h
    cases hg : kill_process s url g with
    | none => rw [hg] at h; cases h
    | some pr =>
      rw [hg, Option.map_some'] at h
      cases Option.some.inj h
      exact kill_process_keys_nodup s url g pr.1 pr.2.1 pr.2.2
        (by rw [hg]) hn
  | killAll g =>
    exact kill_all_keys_nodup s g s' h hn

theorem execOps_keys_nodup (ops : List RegistryOp) :
    ∀ s s', execOps s ops = some s' → KeysNodup s → KeysNodup s' := by
  induction ops with
  | nil =>
    intro s s' h hn
    cases Option.some.inj h
    exact hn
  | cons op rest ih =>
    intro s s' h hn
    unfold execOps at h
    cases hop : applyOp s op with
    | none => rw [hop] at h; cases h
    | some s1 =>
      rw [hop] at h
      exact ih s1 s' h (applyOp_keys_nodup s op s1 hop hn)

/-- C9: every sequence of `Acquire`, `ReleaseClient`, `Kill`, `KillAll`
operations that completes preserves the invariant that the registry maps
each source key to at most one Session (pairwise-distinct keys), and an
`Acquire` for a never-seen source performs exactly one launch, creating
exactly one Session for it. -/
theorem claim9_registry_invariant :
    (∀ ops s s', execOps s ops = some s' → KeysNodup s → KeysNodup s') ∧
    (∀ (s : ManagerState) (url q : String) (c : ClientInfo),
      s.locked = false → lookupA s.processes url = none →
      ∃ p s', get_process s url q c true = some (Except.ok p, s') ∧
        s'.launches = s.launches + 1 ∧
        lookupA s'.processes url = some ⟨p, q, [c], s.clock⟩) := by
  constructor
  · exact fun ops s s' => execOps_keys_nodup ops s s'
  · intro s url q c hl hn
    exact ⟨_, _, get_process_absent_launch_eq s url q c hl hn, rfl,
      lookupA_insertA_self _ _ _⟩

/-- C9 witness: a concrete completed operation sequence on the live
registry, and a first acquisition on the empty registry. -/
theorem claim9_witness :
    KeysNodup { mgrLive with processes := [] } ∧
    (∃ p s', get_process initialManager "A" "best" clientA true =
        some (Except.ok p, s') ∧
      s'.launches = initialManager.launches + 1 ∧
      lookupA s'.processes "A" =
        some ⟨p, "best", [clientA], initialManager.clock⟩) := by
  constructor
  · exact claim9_registry_invariant.1
      [RegistryOp.release "A" "10.0.0.1" "VLC", RegistryOp.kill "A" true]
      mgrLive { mgrLive with processes := [] } (by decide) (by decide)
  · exact claim9_registry_invariant.2 initialManager "A" "best" clientA
      (by decide) (by decide)

end YoutubeLive
